import Mathlib

/-!
# Verification of the eosjs `Api` pipeline (`src/eosjs-api.ts`)

A shallow embedding of the transaction pipeline of `src/eosjs-api.ts`:
ABI acquisition and caching (`getCachedAbi`, `getContract`,
`getTransactionAbis`), ABI binary decode/encode (`rawAbiToJson`,
`jsonToRawAbi`), context-free-data serialization
(`serializeContextFreeData`), TAPOS resolution (`generateTapos`,
`tryGetBlockHeaderState`, `hasRequiredTaposFields`) and the
`transact` orchestration with its post-broadcast WASM-ABI enrichment.

Byte sequences are `List Nat`; JavaScript dynamic values that matter
to the pipeline (truthiness, `typeof x === "number"`) are the `JSVal`
type.  Remote calls are recorded in an explicit trace (`RemoteCall`)
and the mutable `Api` object state (`chainId`, the two caches) is
threaded explicitly as `ApiState`.

The low-level codec (`eosjs-serialize`), the signature provider and
the RPC transport are external collaborators of the sources of this file;
they are modelled from the spec where marked.
-/

namespace Eosjs

/-- JavaScript dynamic values, as far as the pipeline observes them:
`transact` inspects TAPOS fields via truthiness and `typeof`. -/
inductive JSVal where
  | undef
  | num (n : Int)
  | str (s : String)
  | boolean (b : Bool)
deriving DecidableEq, Repr

/-- JavaScript truthiness of a `JSVal`. -/
def JSVal.truthy : JSVal → Bool
  | .undef => false
  | .num n => n != 0
  | .str s => s != ""
  | .boolean b => b

/-- `typeof v === "number"`. -/
def JSVal.isNumber : JSVal → Bool
  | .num _ => true
  | _ => false

instance instDecEqExcept {ε α : Type} [DecidableEq ε] [DecidableEq α] :
    DecidableEq (Except ε α)
  | .error e1, .error e2 =>
    if h : e1 = e2 then .isTrue (by rw [h])
    else .isFalse (fun hh => h (Except.error.inj hh))
  | .error _, .ok _ => .isFalse (fun hh => Except.noConfusion hh)
  | .ok _, .error _ => .isFalse (fun hh => Except.noConfusion hh)
  | .ok a1, .ok a2 =>
    if h : a1 = a2 then .isTrue (by rw [h])
    else .isFalse (fun hh => h (Except.ok.inj hh))

/-- Fuel-indexed worker for `pushVaruint32` (fuel keeps the recursion
structural; any fuel at or above the value yields the encoding). -/
def pushVaruint32Go : Nat → Nat → List Nat
  | 0, n => [n]
  | fuel + 1, n =>
    if n < 128 then [n]
    else (n % 128 + 128) :: pushVaruint32Go fuel (n / 128)

/-- Modelled from the spec: the serializer routine `pushVaruint32`
(LEB128 variable-length encoding used for length prefixes). -/
def pushVaruint32 (n : Nat) : List Nat := pushVaruint32Go n n

/-- Modelled from the spec: the serializer routine `getVaruint32`, the
inverse read of `pushVaruint32`; returns the value and remaining bytes. -/
def readVaruint32 : List Nat → Option (Nat × List Nat)
  | [] => none
  | b :: rest =>
    if b < 128 then some (b, rest)
    else
      match readVaruint32 rest with
      | none => none
      | some (v, r) => some (v * 128 + (b - 128), r)

/-- Modelled from the spec: the serializer routine `pushString`, a
length-prefixed (codepoint) encoding of a string. -/
def encodeStr (s : String) : List Nat :=
  pushVaruint32 s.data.length ++ s.data.map Char.toNat

/-- Modelled from the spec: the serializer routine `getString`, the inverse
read of `encodeStr`. -/
def readStr (bs : List Nat) : Option (String × List Nat) :=
  match readVaruint32 bs with
  | none => none
  | some (n, rest) =>
    if n ≤ rest.length then
      some (String.mk ((rest.take n).map Char.ofNat), rest.drop n)
    else none

theorem readVaruint32_pushGo (fuel : Nat) : ∀ (n : Nat), n ≤ fuel → ∀ (r : List Nat),
    readVaruint32 (pushVaruint32Go fuel n ++ r) = some (n, r) := by
  induction fuel with
  | zero =>
    intro n hn r
    have h0 : n = 0 := Nat.le_zero.mp hn
    subst h0
    rfl
  | succ fuel ih =>
    intro n hn r
    rw [pushVaruint32Go]
    by_cases h : n < 128
    · rw [if_pos h]
      show readVaruint32 (n :: r) = some (n, r)
      rw [readVaruint32, if_pos h]
    · rw [if_neg h]
      show readVaruint32 ((n % 128 + 128) :: (pushVaruint32Go fuel (n / 128) ++ r))
        = some (n, r)
      have hfuel : n / 128 ≤ fuel :=
        Nat.le_of_lt_succ (Nat.lt_of_lt_of_le (Nat.div_lt_self (by omega) (by omega)) hn)
      rw [readVaruint32, if_neg (by omega), ih (n / 128) hfuel r]
      have hval : n / 128 * 128 + (n % 128 + 128 - 128) = n := by
        have := Nat.div_add_mod n 128
        omega
      show some (n / 128 * 128 + (n % 128 + 128 - 128), r) = some (n, r)
      rw [hval]

theorem readVaruint32_push (n : Nat) (r : List Nat) :
    readVaruint32 (pushVaruint32 n ++ r) = some (n, r) :=
  readVaruint32_pushGo n n (Nat.le_refl n) r

theorem readStr_encode (s : String) (r : List Nat) :
    readStr (encodeStr s ++ r) = some (s, r) := by
  have hmap : (s.data.map Char.toNat).map Char.ofNat = s.data := by
    rw [List.map_map]
    calc s.data.map (Char.ofNat ∘ Char.toNat)
        = s.data.map id := List.map_congr_left (fun c _ => Char.ofNat_toNat c)
      _ = s.data := List.map_id _
  have hlen : (s.data.map Char.toNat).length = s.data.length := by
    rw [List.length_map]
  unfold readStr encodeStr
  rw [List.append_assoc, readVaruint32_push]
  show (if s.data.length ≤ (s.data.map Char.toNat ++ r).length then _ else _) = _
  rw [if_pos (by rw [List.length_append, hlen]; omega)]
  rw [← hlen, List.take_left, List.drop_left, hmap]

/-- Modelled from the spec: encoding of a list of (action name, type
name) bindings inside the `abi_def` schema — a varuint32 count followed
by the entries. -/
def encodePairs (l : List (String × String)) : List Nat :=
  pushVaruint32 l.length ++ (l.map (fun p => encodeStr p.1 ++ encodeStr p.2)).flatten

/-- Modelled from the spec: inverse read of the entries of
`encodePairs`, given the entry count. -/
def readPairs : Nat → List Nat → Option (List (String × String) × List Nat)
  | 0, bs => some ([], bs)
  | n + 1, bs =>
    match readStr bs with
    | none => none
    | some (a, bs1) =>
      match readStr bs1 with
      | none => none
      | some (t, bs2) =>
        match readPairs n bs2 with
        | none => none
        | some (l, bs3) => some ((a, t) :: l, bs3)

theorem readPairs_encode (l : List (String × String)) (r : List Nat) :
    readPairs l.length ((l.map (fun p => encodeStr p.1 ++ encodeStr p.2)).flatten ++ r)
      = some (l, r) := by
  induction l with
  | nil => rfl
  | cons p tl ih =>
    simp only [List.map_cons, List.flatten_cons, List.length_cons, readPairs,
      List.append_assoc, readStr_encode, ih]

/-- A structured ABI document (`Abi`), as far as the pipeline observes
it: the leading version string, the action name→type-name bindings
used by `getContract`, and the remaining schema content kept opaque. -/
structure Abi where
  version : String
  actions : List (String × String)
  rest : List Nat
deriving DecidableEq, Repr

/-- Modelled from the spec: the Serializer `abi_def` codec in the
serialize direction — a length-prefixed version string header followed
by the schema-defined struct encoding. -/
def abiDefSerialize (a : Abi) : List Nat :=
  encodeStr a.version ++ encodePairs a.actions ++ a.rest

/-- Modelled from the spec: the Serializer `abi_def` codec in the
deserialize direction (inverse of `abiDefSerialize`). -/
def abiDefDeserialize (bs : List Nat) : Except String Abi :=
  match readStr bs with
  | none => .error "Unexpected end of buffer"
  | some (v, bs1) =>
    match readVaruint32 bs1 with
    | none => .error "Unexpected end of buffer"
    | some (n, bs2) =>
      match readPairs n bs2 with
      | none => .error "Unexpected end of buffer"
      | some (acts, bs3) => .ok ⟨v, acts, bs3⟩

theorem abiDefDeserialize_serialize (a : Abi) :
    abiDefDeserialize (abiDefSerialize a) = .ok a := by
  unfold abiDefDeserialize abiDefSerialize encodePairs
  simp only [List.append_assoc, readStr_encode, readVaruint32_push, readPairs_encode]

theorem abiDefDeserialize_version (bs : List Nat) (a : Abi)
    (h : abiDefDeserialize bs = .ok a) :
    ∃ tl, readStr bs = some (a.version, tl) := by
  unfold abiDefDeserialize at h
  split at h
  · exact absurd h (by simp)
  next v bs1 heq =>
    split at h
    · exact absurd h (by simp)
    next n bs2 heq2 =>
      split at h
      · exact absurd h (by simp)
      next acts bs3 heq3 =>
        simp only [Except.ok.injEq] at h
        exact ⟨bs1, by rw [heq, ← h]⟩

/-- Whether the first list is a leading segment of the second. -/
def isLeadingSegment : List Char → List Char → Bool
  | [], _ => true
  | _ :: _, [] => false
  | a :: as, b :: bs => a == b && isLeadingSegment as bs

/-- Modelled from the spec: `ser.supportedAbiVersion` — the version
string must match a supported version-string set (it must start with
`eosio::abi/1.`). -/
def supportedAbiVersion (v : String) : Bool :=
  isLeadingSegment "eosio::abi/1.".data v.data

/-- `Api.rawAbiToJson`: reads the leading version string, rejects an
unsupported version, otherwise deserializes the whole buffer through
the `abi_def` codec. -/
def rawAbiToJson (rawAbi : List Nat) : Except String Abi :=
  match readStr rawAbi with
  | none => .error "Unexpected end of buffer"
  | some (v, _) =>
    if !supportedAbiVersion v then .error "Unsupported abi version"
    else abiDefDeserialize rawAbi

/-- `Api.jsonToRawAbi`: serializes the structured document through the
`abi_def` codec, then reads the version string back from the produced
bytes and rejects an unsupported version. -/
def jsonToRawAbi (jsonAbi : Abi) : Except String (List Nat) :=
  match readStr (abiDefSerialize jsonAbi) with
  | none => .error "Unexpected end of buffer"
  | some (v, _) =>
    if !supportedAbiVersion v then .error "Unsupported abi version"
    else .ok (abiDefSerialize jsonAbi)

theorem readStr_abiDefSerialize (a : Abi) :
    readStr (abiDefSerialize a) = some (a.version, encodePairs a.actions ++ a.rest) := by
  rw [abiDefSerialize, List.append_assoc, readStr_encode]

theorem jsonToRawAbi_supported (a : Abi) (h : supportedAbiVersion a.version = true) :
    jsonToRawAbi a = .ok (abiDefSerialize a) := by
  unfold jsonToRawAbi
  rw [readStr_abiDefSerialize]
  simp [h]

theorem jsonToRawAbi_unsupported (a : Abi) (h : supportedAbiVersion a.version = false) :
    jsonToRawAbi a = .error "Unsupported abi version" := by
  unfold jsonToRawAbi
  rw [readStr_abiDefSerialize]
  simp [h]

theorem rawAbiToJson_serialize (a : Abi) (h : supportedAbiVersion a.version = true) :
    rawAbiToJson (abiDefSerialize a) = .ok a := by
  unfold rawAbiToJson
  rw [readStr_abiDefSerialize]
  simp [h, abiDefDeserialize_serialize]

/-! ## Hex strings (`ser.hexToUint8Array` / `ser.arrayToHex`) -/

/-- Modelled from the spec: value of one hex digit character. -/
def hexDigitVal (c : Char) : Option Nat :=
  if '0' ≤ c ∧ c ≤ '9' then some (c.toNat - '0'.toNat)
  else if 'a' ≤ c ∧ c ≤ 'f' then some (c.toNat - 'a'.toNat + 10)
  else if 'A' ≤ c ∧ c ≤ 'F' then some (c.toNat - 'A'.toNat + 10)
  else none

/-- Modelled from the spec: `ser.hexToUint8Array` consumes hex digits
two at a time; an odd digit count or a non-hex character throws. -/
def hexPairsToBytes : List Char → Except String (List Nat)
  | [] => .ok []
  | [_] => .error "Odd number of hex digits"
  | a :: b :: rest =>
    match hexDigitVal a, hexDigitVal b with
    | some x, some y =>
      match hexPairsToBytes rest with
      | .error e => .error e
      | .ok l => .ok ((x * 16 + y) :: l)
    | _, _ => .error "Expected hex string"

/-- Modelled from the spec: `ser.hexToUint8Array`. -/
def hexToUint8Array (s : String) : Except String (List Nat) :=
  hexPairsToBytes s.data

/-- Modelled from the spec: one byte rendered as two lowercase hex
digits (`ser.arrayToHex` per element). -/
def byteToHex (n : Nat) : List Char :=
  [(Nat.digitChar (n / 16 % 16)), (Nat.digitChar (n % 16))]

/-- Modelled from the spec: `ser.arrayToHex`. -/
def arrayToHex (l : List Nat) : String :=
  String.mk (l.map byteToHex).flatten

/-! ## Data model: caches, state, remote calls -/

/-- `CachedAbi`: the per-account entry of `Api.cachedAbis`, raw bytes
plus the structured document. -/
structure CachedAbi where
  rawAbi : List Nat
  abi : Abi
deriving DecidableEq, Repr

/-- `ser.Contract` as used by the pipeline: the action-name→codec map
built by `Api.getContract` (the codec stands for the looked-up type). -/
structure Contract where
  actions : List (String × String)
deriving DecidableEq, Repr

/-- `BinaryAbi` entries produced by `Api.getTransactionAbis`. -/
structure BinaryAbi where
  accountName : String
  abi : List Nat
deriving DecidableEq, Repr

/-- Replace-or-append update of an association list, the semantics of
JavaScript `Map.set`: a reload replaces an entry, never merges. -/
def mapSet {α : Type} (m : List (String × α)) (k : String) (v : α) : List (String × α) :=
  match m with
  | [] => [(k, v)]
  | (k2, v2) :: rest => if k2 = k then (k, v) :: rest else (k2, v2) :: mapSet rest k v

/-- The mutable fields of the `Api` object that the pipeline touches:
the cached chain id and the two per-account caches. -/
structure ApiState where
  chainId : Option String
  cachedAbis : List (String × CachedAbi)
  contracts : List (String × Contract)
deriving DecidableEq, Repr

/-- One remote / collaborator call, recorded in order in a trace. -/
inductive RemoteCall where
  | getInfo
  | getBlock (num : Int)
  | getBlockHeaderState (num : Int)
  | getRawAbi (account : String)
  | getAvailableKeys
  | getRequiredKeys
  | signCall
  | sendTransaction
deriving DecidableEq, Repr

/-- `GetInfoResult`, the fields the pipeline reads. -/
structure GetInfoResult where
  chain_id : String
  head_block_num : Int
  last_irreversible_block_num : Int
deriving DecidableEq, Repr

/-- The reference-block fields consumed by `ser.transactionHeader`:
both `get_block` and `get_block_header_state` results provide them. -/
structure BlockTaposInfo where
  block_num : Int
  ref_block_pfx : Int
  timestamp : Int
deriving DecidableEq, Repr

/-- Action data: either still-structured caller data or an
already-encoded hex string. -/
inductive ActionDataVal where
  | structured (v : String)
  | hexData (h : String)
deriving DecidableEq, Repr

/-- `ser.Action`: account, action name, ordered authorization list
(actor, permission) and data. -/
structure Action where
  account : String
  name : String
  authorization : List (String × String)
  data : ActionDataVal
deriving DecidableEq, Repr

/-- The transaction envelope handed to `Api.transact`.  The three TAPOS
fields are JavaScript dynamic values (`transact` checks them via
truthiness / `typeof`); `ref_block_pfx` embeds the source field
`ref_block_prefix`.  A `JSVal.undef` field stands for an absent
property. -/
structure Transaction where
  expiration : JSVal := .undef
  ref_block_num : JSVal := .undef
  ref_block_pfx : JSVal := .undef
  context_free_actions : List Action := []
  actions : List Action := []
  context_free_data : Option (List (List Nat)) := none
deriving DecidableEq, Repr

/-- The post-broadcast decoded form of a trace field: original hex or
the output of the WASM-ABI decode hook. -/
inductive TraceVal where
  | hexVal (s : String)
  | decoded (v : String)
deriving DecidableEq, Repr

/-- `act` of an action trace in a node response. -/
structure ActData where
  account : String
  name : String
  data : Option TraceVal
deriving DecidableEq, Repr

/-- One `action_trace` of a node response; `none` fields stand for
absent properties (`hasOwnProperty` is false). -/
structure ActionTrace where
  act : Option ActData
  return_value : Option TraceVal
deriving DecidableEq, Repr

/-- A node response to `send_transaction`: `processed.action_traces`
when present, and the rest of the response kept opaque. -/
structure NodeResponse where
  hasProcessed : Bool
  action_traces : Option (List ActionTrace)
  other : String
deriving DecidableEq, Repr

/-- The JSON output of the decode hooks (`long_name` plus the decoded value,
standing for `args` / `return_value`). -/
structure WasmDecoded where
  long_name : String
  value : String
deriving DecidableEq, Repr

/-- A WASM ABI registered with the `WasmAbiProvider`: the two decode
hooks used by post-broadcast enrichment (they may throw). -/
structure WasmAbi where
  action_args_bin_to_json : String → List Nat → Except String WasmDecoded
  action_ret_bin_to_json : String → List Nat → Except String WasmDecoded

/-- `PushTransactionArgs`: the wire-ready unit. -/
structure PushTransactionArgs where
  signatures : List String
  serializedTransaction : List Nat
  serializedContextFreeData : Option (List Nat)
  compression : Option Nat := none
deriving DecidableEq, Repr

/-- Modelled from the spec: the `SignatureProvider.sign` response —
signatures, a possibly re-derived serialized transaction and
context-free data.  It carries no compression field. -/
structure SignResponse where
  signatures : List String
  serializedTransaction : List Nat
  serializedContextFreeData : Option (List Nat)
deriving DecidableEq, Repr

/-- The request handed to `SignatureProvider.sign`. -/
structure SignRequest where
  chainId : String
  requiredKeys : List String
  serializedTransaction : List Nat
  serializedContextFreeData : Option (List Nat)
  abis : List BinaryAbi
deriving Repr

/-- The external collaborators of the `Api` object: RPC endpoints, ABI
provider, signature/authority providers and the WASM-ABI registry.
All are total functions of the request; fallible ones return
`Except`. -/
structure Env where
  info : GetInfoResult
  getBlock : Int → BlockTaposInfo
  getBlockHeaderState : Int → Except String BlockTaposInfo
  getRawAbi : String → Except String (List Nat)
  availableKeys : List String
  requiredKeysFor : List String → List String
  signResult : SignRequest → SignResponse
  sendTransaction : PushTransactionArgs → NodeResponse
  wasmAbiProvider : Option (String → Option WasmAbi)

/-- Whether an account is registered with the WASM-ABI registry (the
`this.wasmAbiProvider && this.wasmAbiProvider.wasmAbis.get(account)`
guard). -/
def isWasmAccount (env : Env) (account : String) : Bool :=
  match env.wasmAbiProvider with
  | none => false
  | some w => (w account).isSome

/-! ## ABI cache (`Api.getCachedAbi`, `Api.getContract`,
`Api.getTransactionAbis`) -/

/-- `Api.getCachedAbi`: return the cached entry unless `reload` is set
or no entry exists; otherwise fetch raw bytes from the ABI provider,
decode them, wrap fetch/decode errors with the account name, and store
the result before returning it. -/
def getCachedAbi (env : Env) (st : ApiState) (accountName : String) (reload : Bool) :
    Except String CachedAbi × List RemoteCall × ApiState :=
  match (if reload then none else st.cachedAbis.lookup accountName) with
  | some c => (.ok c, [], st)
  | none =>
    match env.getRawAbi accountName with
    | .error e =>
      (.error ("fetching abi for " ++ accountName ++ ": " ++ e),
        [.getRawAbi accountName], st)
    | .ok rawAbi =>
      match rawAbiToJson rawAbi with
      | .error e =>
        (.error ("fetching abi for " ++ accountName ++ ": " ++ e),
          [.getRawAbi accountName], st)
      | .ok abi =>
        let cachedAbi : CachedAbi := ⟨rawAbi, abi⟩
        (.ok cachedAbi, [.getRawAbi accountName],
          { st with cachedAbis := mapSet st.cachedAbis accountName cachedAbi })

/-- `Api.getContract`: derived per-account cache of the action→codec
map, rebuilt whenever the underlying ABI is (re)fetched. -/
def getContract (env : Env) (st : ApiState) (accountName : String) (reload : Bool) :
    Except String Contract × List RemoteCall × ApiState :=
  match (if reload then none else st.contracts.lookup accountName) with
  | some c => (.ok c, [], st)
  | none =>
    match getCachedAbi env st accountName reload with
    | (.error e, c, st1) => (.error e, c, st1)
    | (.ok cab, c, st1) =>
      let result : Contract := ⟨cab.abi.actions⟩
      (.ok result, c, { st1 with contracts := mapSet st1.contracts accountName result })

/-- Fuel-indexed worker for `dedupAccounts` (fuel keeps the recursion
structural; any fuel at or above the list length suffices). -/
def dedupGo : Nat → List String → List String
  | _, [] => []
  | 0, l => l
  | fuel + 1, a :: rest => a :: dedupGo fuel (rest.filter (fun x => x ≠ a))

/-- First-occurrence deduplication, the semantics of a JavaScript
`Set` built from a list. -/
def dedupAccounts (l : List String) : List String := dedupGo l.length l

/-- Sequential traversal of per-account
fetches of `Api.getTransactionAbis` (fail-fast on the first error). -/
def getAbisGo (env : Env) (reload : Bool) :
    List String → ApiState → Except String (List BinaryAbi) × List RemoteCall × ApiState
  | [], st => (.ok [], [], st)
  | a :: rest, st =>
    match getCachedAbi env st a reload with
    | (.error e, c, st1) => (.error e, c, st1)
    | (.ok cab, c, st1) =>
      match getAbisGo env reload rest st1 with
      | (.error e, c2, st2) => (.error e, c ++ c2, st2)
      | (.ok l, c2, st2) =>
        (.ok ({ accountName := a, abi := cab.rawAbi } :: l), c ++ c2, st2)

/-- `Api.getTransactionAbis`: the ABIs needed by the actions of a
transaction, deduplicated by account, skipping WASM-ABI accounts. -/
def getTransactionAbis (env : Env) (st : ApiState) (transaction : Transaction)
    (reload : Bool) : Except String (List BinaryAbi) × List RemoteCall × ApiState :=
  let actions := transaction.context_free_actions ++ transaction.actions
  let accounts := actions.map Action.account
  let uniqueAccounts := dedupAccounts accounts
  let filtered := uniqueAccounts.filter (fun a => !isWasmAccount env a)
  getAbisGo env reload filtered st

/-! ## Action and transaction serialization -/

/-- Modelled from the spec: `ser.serializeAction` — converts the data
field through the action-name-keyed codec of the contract; a missing
codec for the action name is a hard failure naming account and
action. -/
def serializeAction (contract : Contract) (account nm : String)
    (authorization : List (String × String)) (data : ActionDataVal) :
    Except String Action :=
  match contract.actions.lookup nm with
  | none => .error ("Unknown action " ++ nm ++ " in contract " ++ account)
  | some typeName =>
    .ok { account, name := nm, authorization,
          data := .hexData (arrayToHex (encodeStr typeName ++
            (match data with
             | .structured v => encodeStr v
             | .hexData h => encodeStr h))) }

/-- `Api.serializeActions`: per action, a WASM-ABI account passes
through unchanged, otherwise the contract is resolved (fetching and
caching as needed) and the action converted via `ser.serializeAction`.
Output order matches input order. -/
def serializeActionsGo (env : Env) :
    List Action → ApiState → Except String (List Action) × List RemoteCall × ApiState
  | [], st => (.ok [], [], st)
  | a :: rest, st =>
    if isWasmAccount env a.account then
      match serializeActionsGo env rest st with
      | (.error e, c, st2) => (.error e, c, st2)
      | (.ok l, c, st2) => (.ok (a :: l), c, st2)
    else
      match getContract env st a.account false with
      | (.error e, c, st1) => (.error e, c, st1)
      | (.ok contract, c, st1) =>
        match serializeAction contract a.account a.name a.authorization a.data with
        | .error e => (.error e, c, st1)
        | .ok sa =>
          match serializeActionsGo env rest st1 with
          | (.error e, c2, st2) => (.error e, c ++ c2, st2)
          | (.ok l, c2, st2) => (.ok (sa :: l), c ++ c2, st2)

/-- Byte encoding of a `JSVal` inside the envelope encoding. -/
def jsValBytes : JSVal → List Nat
  | .undef => [0]
  | .num n => 1 :: pushVaruint32 n.natAbs
  | .str s => 2 :: encodeStr s
  | .boolean b => [3, if b then 1 else 0]

/-- Byte encoding of one action inside the envelope encoding. -/
def encodeActionBytes (a : Action) : List Nat :=
  encodeStr a.account ++ encodeStr a.name
    ++ pushVaruint32 a.authorization.length
    ++ (a.authorization.map (fun p => encodeStr p.1 ++ encodeStr p.2)).flatten
    ++ (match a.data with
        | .structured v => 0 :: encodeStr v
        | .hexData h => 1 :: encodeStr h)

/-- Modelled from the spec: `Api.serializeTransaction` — merges the
caller-supplied fields over a default envelope (zeroed usage limits,
empty lists) and serializes the merged structure with the
transaction-type table. -/
def serializeTransaction (t : Transaction) : List Nat :=
  jsValBytes t.expiration ++ jsValBytes t.ref_block_num ++ jsValBytes t.ref_block_pfx
    ++ pushVaruint32 0 ++ pushVaruint32 0 ++ pushVaruint32 0
    ++ pushVaruint32 t.context_free_actions.length
    ++ (t.context_free_actions.map encodeActionBytes).flatten
    ++ pushVaruint32 t.actions.length
    ++ (t.actions.map encodeActionBytes).flatten
    ++ pushVaruint32 0

/-- Modelled from the spec: the serializer routine `pushBytes` — a varuint32
length prefix followed by the bytes. -/
def pushBytes (d : List Nat) : List Nat :=
  pushVaruint32 d.length ++ d

/-- `Api.serializeContextFreeData`: `null` when the argument is missing
or empty, otherwise a varuint32 element count followed by each blob as
a length-prefixed byte array. -/
def serializeContextFreeData (contextFreeData : Option (List (List Nat))) :
    Option (List Nat) :=
  match contextFreeData with
  | none => none
  | some l =>
    if l.length = 0 then none
    else some (pushVaruint32 l.length ++ (l.map pushBytes).flatten)

/-! ## TAPOS (`Api.hasRequiredTaposFields`, `Api.generateTapos`,
`Api.tryGetBlockHeaderState`) -/

/-- `Api.hasRequiredTaposFields`:
`!!(expiration && typeof(ref_block_num) === "number" &&
typeof(ref_block_prefix) === "number")`. -/
def hasRequiredTaposFields (t : Transaction) : Bool :=
  t.expiration.truthy && t.ref_block_num.isNumber && t.ref_block_pfx.isNumber

/-- The three header fields produced by `ser.transactionHeader`. -/
structure TaposHeader where
  expiration : JSVal
  ref_block_num : JSVal
  ref_block_pfx : JSVal
deriving DecidableEq, Repr

/-- Modelled from the spec: `ser.transactionHeader` — expiration is
the timestamp of the reference block plus `expireSeconds`, the reference
block number is masked to 16 bits, and the reference prefix is taken
from the block. -/
def transactionHeader (refBlock : BlockTaposInfo) (expireSeconds : Int) : TaposHeader :=
  { expiration := .num (refBlock.timestamp + expireSeconds),
    ref_block_num := .num (refBlock.block_num % 65536),
    ref_block_pfx := .num refBlock.ref_block_pfx }

/-- The spread-merge `{ ...ser.transactionHeader(...), ...transaction }`:
fields present on the transaction take precedence over the header. -/
def mergeHeader (h : TaposHeader) (t : Transaction) : Transaction :=
  { t with
    expiration := if t.expiration = .undef then h.expiration else t.expiration,
    ref_block_num := if t.ref_block_num = .undef then h.ref_block_num else t.ref_block_num,
    ref_block_pfx := if t.ref_block_pfx = .undef then h.ref_block_pfx else t.ref_block_pfx }

/-- `Api.tryGetBlockHeaderState`: attempt `get_block_header_state`;
on any error fall back to `get_block` for the same number. -/
def tryGetBlockHeaderState (env : Env) (taposBlockNumber : Int) :
    BlockTaposInfo × List RemoteCall :=
  match env.getBlockHeaderState taposBlockNumber with
  | .ok b => (b, [.getBlockHeaderState taposBlockNumber])
  | .error _ =>
    (env.getBlock taposBlockNumber,
      [.getBlockHeaderState taposBlockNumber, .getBlock taposBlockNumber])

/-- `Api.generateTapos`: fetch node info when not already supplied,
pick the reference block number, fetch the reference block (directly
when at/below last-irreversible, else via `tryGetBlockHeaderState`),
and merge the resulting header under the transaction. -/
def generateTapos (env : Env) (info : Option GetInfoResult) (transaction : Transaction)
    (blocksBehind : Option Int) (useLastIrreversible : Bool) (expireSeconds : Int) :
    Transaction × List RemoteCall :=
  let infoStep : GetInfoResult × List RemoteCall :=
    match info with
    | some i => (i, [])
    | none => (env.info, [.getInfo])
  let i := infoStep.1
  let taposBlockNumber : Int :=
    if useLastIrreversible then i.last_irreversible_block_num
    else i.head_block_num - blocksBehind.getD 0
  let blockStep : BlockTaposInfo × List RemoteCall :=
    if taposBlockNumber ≤ i.last_irreversible_block_num then
      (env.getBlock taposBlockNumber, [.getBlock taposBlockNumber])
    else tryGetBlockHeaderState env taposBlockNumber
  (mergeHeader (transactionHeader blockStep.1 expireSeconds) transaction,
    infoStep.2 ++ blockStep.2)

/-! ## Post-broadcast WASM-ABI enrichment (`Api.transact`, broadcast
branch) -/

/-- One decode attempt on a trace field: `ser.hexToUint8Array` followed
by the registry decode hook; any throw surfaces as `.error`. -/
def decodeTraceField (decode : String → List Nat → Except String WasmDecoded)
    (nm : String) (v : TraceVal) : Except String WasmDecoded :=
  match v with
  | .decoded _ => .error "not a hex string"
  | .hexVal s =>
    match hexToUint8Array s with
    | .error e => .error e
    | .ok bytes => decode nm bytes

/-- The per-trace enrichment of the broadcast branch of `Api.transact`: for
a trace whose account is registered with the WASM-ABI registry, try to
decode `act.data` and `return_value`; each failed attempt is swallowed
and leaves the trace untouched.  The action name passed to the second
hook is the one captured before the first decode. -/
def enrichTrace (wasmAbis : String → Option WasmAbi) (t : ActionTrace) : ActionTrace :=
  match t.act with
  | none => t
  | some act0 =>
    match wasmAbis act0.account with
    | none => t
    | some abi =>
      let nm := act0.name
      let t1 : ActionTrace :=
        match act0.data with
        | none => t
        | some d =>
          match decodeTraceField abi.action_args_bin_to_json nm d with
          | .error _ => t
          | .ok j =>
            { t with act := some { act0 with name := j.long_name,
                                             data := some (.decoded j.value) } }
      match t1.return_value with
      | none => t1
      | some rv =>
        match decodeTraceField abi.action_ret_bin_to_json nm rv with
        | .error _ => t1
        | .ok j =>
          { t1 with
            act := t1.act.map (fun a => { a with name := j.long_name }),
            return_value := some (.decoded j.value) }

/-- The response post-processing of the broadcast branch of `Api.transact`:
when a WASM-ABI provider is present and the response carries
`processed.action_traces`, each trace is enriched in place; everything
else in the response is left untouched. -/
def enrichResponse (wasmAbiProvider : Option (String → Option WasmAbi))
    (r : NodeResponse) : NodeResponse :=
  match wasmAbiProvider with
  | none => r
  | some wasmAbis =>
    if r.hasProcessed then
      match r.action_traces with
      | none => r
      | some ts => { r with action_traces := some (ts.map (enrichTrace wasmAbis)) }
    else r

/-! ## `Api.transact` -/

/-- `TransactConfig`, with the defaults of the source (`broadcast = true`,
`sign = true`).  `blocksBehind = some n` stands for
`typeof blocksBehind === "number"`; `expireSeconds = 0` is falsy, as
an absent or zero value is in the source. -/
structure TransactConfig where
  broadcast : Bool := true
  sign : Bool := true
  requiredKeys : Option (List String) := none
  compression : Bool := false
  blocksBehind : Option Int := none
  useLastIrreversible : Bool := false
  expireSeconds : Int := 0
deriving Repr

/-- What `Api.transact` returns: the node response when broadcasting,
the `PushTransactionArgs` otherwise. -/
inductive TResult where
  | push (args : PushTransactionArgs)
  | response (r : NodeResponse)
deriving DecidableEq, Repr

/-- `Api.transact`: the signing/broadcast orchestration, returning the
result, the ordered trace of remote/collaborator calls, and the
updated `Api` state. -/
def transact (env : Env) (st : ApiState) (transaction : Transaction)
    (cfg : TransactConfig) : Except String TResult × List RemoteCall × ApiState :=
  if cfg.blocksBehind.isSome && cfg.useLastIrreversible then
    (.error "Use either blocksBehind or useLastIrreversible", [], st)
  else
    let infoStep : Option GetInfoResult × List RemoteCall × ApiState :=
      match st.chainId with
      | some _ => (none, [], st)
      | none => (some env.info, [.getInfo], { st with chainId := some env.info.chain_id })
    let info := infoStep.1
    let c0 := infoStep.2.1
    let st0 := infoStep.2.2
    let taposStep : Transaction × List RemoteCall :=
      if (cfg.blocksBehind.isSome || cfg.useLastIrreversible) && cfg.expireSeconds != 0 then
        generateTapos env info transaction cfg.blocksBehind cfg.useLastIrreversible
          cfg.expireSeconds
      else (transaction, [])
    let tx1 := taposStep.1
    let c1 := taposStep.2
    if !hasRequiredTaposFields tx1 then
      (.error "Required configuration or TAPOS fields are not present", c0 ++ c1, st0)
    else
      match getTransactionAbis env st0 tx1 false with
      | (.error e, c2, st2) => (.error e, c0 ++ c1 ++ c2, st2)
      | (.ok abis, c2, st2) =>
        match serializeActionsGo env tx1.context_free_actions st2 with
        | (.error e, c3, st3) => (.error e, c0 ++ c1 ++ c2 ++ c3, st3)
        | (.ok cfa, c3, st3) =>
          match serializeActionsGo env tx1.actions st3 with
          | (.error e, c4, st4) => (.error e, c0 ++ c1 ++ c2 ++ c3 ++ c4, st4)
          | (.ok acts, c4, st4) =>
            let tx2 := { tx1 with context_free_actions := cfa, actions := acts }
            let serializedTransaction := serializeTransaction tx2
            let serializedContextFreeData :=
              serializeContextFreeData tx2.context_free_data
            let args0 : PushTransactionArgs :=
              { signatures := [], serializedTransaction, serializedContextFreeData,
                compression := if cfg.compression then some 1 else none }
            let signStep : PushTransactionArgs × List RemoteCall :=
              if cfg.sign then
                let keysStep : List String × List RemoteCall :=
                  match cfg.requiredKeys with
                  | some k => (k, [])
                  | none =>
                    (env.requiredKeysFor env.availableKeys,
                      [.getAvailableKeys, .getRequiredKeys])
                let resp := env.signResult
                  { chainId := st0.chainId.getD "", requiredKeys := keysStep.1,
                    serializedTransaction, serializedContextFreeData, abis }
                -- the provider response replaces pushTransactionArgs
                -- wholesale; it carries no compression field
                ({ signatures := resp.signatures,
                   serializedTransaction := resp.serializedTransaction,
                   serializedContextFreeData := resp.serializedContextFreeData,
                   compression := none },
                  keysStep.2 ++ [.signCall])
              else (args0, [])
            let args1 := signStep.1
            let c5 := signStep.2
            if cfg.broadcast then
              (.ok (.response (enrichResponse env.wasmAbiProvider
                  (env.sendTransaction args1))),
                c0 ++ c1 ++ c2 ++ c3 ++ c4 ++ c5 ++ [.sendTransaction], st4)
            else
              (.ok (.push args1), c0 ++ c1 ++ c2 ++ c3 ++ c4 ++ c5, st4)

/-! ## Shared lemmas -/

theorem lookup_mapSet {α : Type} (m : List (String × α)) (k k2 : String) (v : α) :
    (mapSet m k v).lookup k2 = if k2 = k then some v else m.lookup k2 := by
  induction m with
  | nil =>
    by_cases h : k2 = k
    · simp [mapSet, List.lookup, h]
    · simp [mapSet, List.lookup, beq_eq_false_iff_ne.mpr h, h]
  | cons p rest ih =>
    obtain ⟨k3, v3⟩ := p
    by_cases h3 : k3 = k
    · subst h3
      simp only [mapSet, if_pos rfl]
      by_cases h : k2 = k3
      · subst h
        simp [List.lookup]
      · simp [List.lookup, beq_eq_false_iff_ne.mpr h, h]
    · simp only [mapSet, if_neg h3]
      by_cases h : k2 = k3
      · subst h
        simp [List.lookup, h3]
      · simp [List.lookup, beq_eq_false_iff_ne.mpr h, h, ih]

theorem pushVaruint32_ne_nil (n : Nat) : pushVaruint32 n ≠ [] := by
  unfold pushVaruint32
  cases n with
  | zero => simp [pushVaruint32Go]
  | succ m =>
    rw [pushVaruint32Go]
    by_cases h : m + 1 < 128
    · simp [h]
    · simp [h]

theorem rawAbiToJson_inv (raw : List Nat) (a : Abi) (h : rawAbiToJson raw = .ok a) :
    abiDefDeserialize raw = .ok a ∧ supportedAbiVersion a.version = true ∧
      ∃ tl, readStr raw = some (a.version, tl) := by
  unfold rawAbiToJson at h
  split at h
  · exact absurd h (by simp)
  next v tl heq =>
    split at h
    · exact absurd h (by simp)
    next hsup =>
      obtain ⟨tl2, hv⟩ := abiDefDeserialize_version raw a h
      rw [heq] at hv
      have hva : v = a.version := congrArg Prod.fst (Option.some.inj hv)
      have hsupv : supportedAbiVersion v = true := by
        cases hs : supportedAbiVersion v with
        | true => rfl
        | false => rw [hs] at hsup; exact absurd rfl hsup
      exact ⟨h, hva ▸ hsupv, ⟨tl, hva ▸ heq⟩⟩

/-- The error path of `transact` when neither TAPOS knob is supplied
and the transaction lacks the required TAPOS fields: a configuration
error, with at most the node-info lookup performed (only when no chain
id was cached). -/
theorem transact_config_error_of_no_knobs (env : Env) (st : ApiState)
    (t : Transaction) (cfg : TransactConfig)
    (hbb : cfg.blocksBehind = none) (huli : cfg.useLastIrreversible = false)
    (htapos : hasRequiredTaposFields t = false) :
    (∀ cid, st.chainId = some cid →
      transact env st t cfg =
        (.error "Required configuration or TAPOS fields are not present", [], st)) ∧
    (st.chainId = none →
      transact env st t cfg =
        (.error "Required configuration or TAPOS fields are not present",
          [RemoteCall.getInfo], { st with chainId := some env.info.chain_id })) := by
  constructor
  · intro cid hcid
    unfold transact
    simp [hbb, huli, hcid, htapos]
  · intro hcid
    unfold transact
    simp [hbb, huli, hcid, htapos]

/-! ## Sample fixtures used by the concrete witnesses -/

/-- A structured ABI document with a supported version. -/
def abiW : Abi :=
  { version := "eosio::abi/1.1", actions := [("transfer", "transfer")], rest := [7, 8] }

/-- The raw bytes of `abiW`. -/
def rawAbiW : List Nat := abiDefSerialize abiW

/-- A sample environment: head block 100, last irreversible 97, the
header-state endpoint failing at or below 97, one known account. -/
def envW : Env :=
  { info := { chain_id := "cid", head_block_num := 100, last_irreversible_block_num := 97 },
    getBlock := fun n => { block_num := n, ref_block_pfx := 42, timestamp := 1000 },
    getBlockHeaderState := fun n =>
      if n ≤ 97 then .error "unknown block" else .ok ⟨n, 43, 2000⟩,
    getRawAbi := fun a =>
      if a = "eosio.token" then .ok rawAbiW else .error "unknown account",
    availableKeys := ["PUB_K1_a"],
    requiredKeysFor := fun ks => ks,
    signResult := fun _ =>
      { signatures := ["SIG_K1_x"], serializedTransaction := [9, 9],
        serializedContextFreeData := none },
    sendTransaction := fun _ =>
      { hasProcessed := true, action_traces := some [], other := "rest" },
    wasmAbiProvider := none }

/-- Like `envW` but with the header-state endpoint always failing. -/
def envW2 : Env := { envW with getBlockHeaderState := fun _ => .error "down" }

/-- An `Api` state with a cached chain id and empty caches. -/
def stEmpty : ApiState := { chainId := some "cid", cachedAbis := [], contracts := [] }

/-- A transaction already carrying complete TAPOS fields. -/
def txTapos : Transaction :=
  { expiration := .str "2021-01-01T00:00:00.000",
    ref_block_num := .num 123, ref_block_pfx := .num 456 }

/-- A `transact` config requesting both compression and signing, no
broadcast, with explicit required keys. -/
def cfgCompressSign : TransactConfig :=
  { broadcast := false, sign := true, requiredKeys := some ["PUB_K1_a"],
    compression := true }

/-- Projection of a `transact` result onto the returned
`PushTransactionArgs`, when the call returned one. -/
def pushResultOf : Except String TResult × List RemoteCall × ApiState →
    Option PushTransactionArgs
  | (.ok (.push args), _, _) => some args
  | _ => none

/-! ## Claim theorems -/

/-- Claim C2: for every call of `transact` whose config supplies both a
numeric `blocksBehind` and `useLastIrreversible = true`, `transact`
throws the configuration error, and it does so before performing any
remote call (the call trace is empty and the state untouched). -/
theorem transact_both_knobs_claim (env : Env) (st : ApiState) (t : Transaction)
    (cfg : TransactConfig) (n : Int)
    (h1 : cfg.blocksBehind = some n) (h2 : cfg.useLastIrreversible = true) :
    transact env st t cfg =
      (.error "Use either blocksBehind or useLastIrreversible", [], st) := by
  unfold transact
  simp [h1, h2]

theorem transact_both_knobs_claim_witness :
    transact envW stEmpty txTapos
        { blocksBehind := some 3, useLastIrreversible := true } =
      (.error "Use either blocksBehind or useLastIrreversible", [], stEmpty) :=
  transact_both_knobs_claim envW stEmpty txTapos _ 3 rfl rfl

/-- Claim C3: for every transaction lacking complete TAPOS fields under
a config supplying neither TAPOS-selection knob, `transact` fails with
the configuration error; the only remote call it may have made is the
node-info (chain id) lookup, and only when no chain id was cached — in
particular no ABI fetch, signing call or submission occurs. -/
theorem transact_missing_tapos_claim (env : Env) (st : ApiState)
    (t : Transaction) (cfg : TransactConfig)
    (hbb : cfg.blocksBehind = none) (huli : cfg.useLastIrreversible = false)
    (htapos : hasRequiredTaposFields t = false) :
    (∀ cid, st.chainId = some cid →
      transact env st t cfg =
        (.error "Required configuration or TAPOS fields are not present", [], st)) ∧
    (st.chainId = none →
      transact env st t cfg =
        (.error "Required configuration or TAPOS fields are not present",
          [RemoteCall.getInfo], { st with chainId := some env.info.chain_id })) :=
  transact_config_error_of_no_knobs env st t cfg hbb huli htapos

theorem transact_missing_tapos_claim_witness :
    transact envW stEmpty {} {} =
      (.error "Required configuration or TAPOS fields are not present", [], stEmpty) :=
  (transact_missing_tapos_claim envW stEmpty {} {} rfl rfl rfl).1 "cid" rfl

/-- Claim C1 (failing input): a call of `transact` with both
compression and signing requested.  The source sets `compression = 1`
on the locally built `pushTransactionArgs`, but the subsequent
`sign` branch replaces that object wholesale with the signature
provider response, which carries no compression field — so the
returned `PushTransactionArgs` has no compression flag at all.  The
config requested both toggles, yet the compression of the result is `none`,
not `some 1`. -/
theorem transact_sign_drops_compression :
    cfgCompressSign.compression = true ∧ cfgCompressSign.sign = true ∧
    pushResultOf (transact envW stEmpty txTapos cfgCompressSign) =
      some { signatures := ["SIG_K1_x"], serializedTransaction := [9, 9],
             serializedContextFreeData := none, compression := none } := by
  refine ⟨rfl, rfl, ?_⟩
  decide

/-- Claim C4: for every TAPOS resolution with node info already in
hand: (i) if the chosen reference block number is at or below the
last-irreversible number, the full block is fetched directly and the
header-state fetch is never attempted; (ii) above it, the header-state
fetch is attempted first and used on success; (iii) on any error from
the header-state fetch, the full-block fetch for the same number is
used instead and its fields populate the envelope. -/
theorem generateTapos_fallback_claim (env : Env) (i : GetInfoResult)
    (t : Transaction) (bb : Option Int) (uli : Bool) (es : Int) (n : Int)
    (hn : n = if uli then i.last_irreversible_block_num
              else i.head_block_num - bb.getD 0) :
    (n ≤ i.last_irreversible_block_num →
      generateTapos env (some i) t bb uli es =
        (mergeHeader (transactionHeader (env.getBlock n) es) t,
          [RemoteCall.getBlock n])) ∧
    (¬ n ≤ i.last_irreversible_block_num →
      ∀ b, env.getBlockHeaderState n = .ok b →
        generateTapos env (some i) t bb uli es =
          (mergeHeader (transactionHeader b es) t,
            [RemoteCall.getBlockHeaderState n])) ∧
    (¬ n ≤ i.last_irreversible_block_num →
      ∀ e, env.getBlockHeaderState n = .error e →
        generateTapos env (some i) t bb uli es =
          (mergeHeader (transactionHeader (env.getBlock n) es) t,
            [RemoteCall.getBlockHeaderState n, RemoteCall.getBlock n])) := by
  subst hn
  refine ⟨fun hle => ?_, fun hgt b hb => ?_, fun hgt e he => ?_⟩
  · unfold generateTapos
    simp [hle]
  · unfold generateTapos tryGetBlockHeaderState
    simp [hgt, hb]
  · unfold generateTapos tryGetBlockHeaderState
    simp [hgt, he]

theorem generateTapos_fallback_claim_witness :
    (generateTapos envW2 (some envW2.info) {} (some 1) false 30 =
      (mergeHeader (transactionHeader (envW2.getBlock 99) 30) {},
        [RemoteCall.getBlockHeaderState 99, RemoteCall.getBlock 99])) ∧
    (generateTapos envW2 (some envW2.info) {} (some 5) false 30 =
      (mergeHeader (transactionHeader (envW2.getBlock 95) 30) {},
        [RemoteCall.getBlock 95])) :=
  ⟨(generateTapos_fallback_claim envW2 envW2.info {} (some 1) false 30 99
      (by decide)).2.2 (by decide) "down" rfl,
   (generateTapos_fallback_claim envW2 envW2.info {} (some 5) false 30 95
      (by decide)).1 (by decide)⟩

/-- Claim C5: starting from a state with no entry for account `A`, the
first `getCachedAbi(A)` call performs the one provider fetch and stores
the decoded entry; a second call without reload performs no fetch and
returns the stored entry; a call with `reload = true` always performs a
fresh fetch whose result replaces (never merges with) whatever was
stored; and every call leaves the key set of the cache a superset of what it
was. -/
theorem getCachedAbi_cache_claim (env : Env) (st : ApiState) (A : String)
    (raw : List Nat) (a : Abi)
    (h0 : st.cachedAbis.lookup A = none)
    (h1 : env.getRawAbi A = .ok raw)
    (h2 : rawAbiToJson raw = .ok a) :
    (getCachedAbi env st A false =
      (.ok ⟨raw, a⟩, [RemoteCall.getRawAbi A],
        { st with cachedAbis := mapSet st.cachedAbis A ⟨raw, a⟩ })) ∧
    (getCachedAbi env { st with cachedAbis := mapSet st.cachedAbis A ⟨raw, a⟩ } A false =
      (.ok ⟨raw, a⟩, [],
        { st with cachedAbis := mapSet st.cachedAbis A ⟨raw, a⟩ })) ∧
    (∀ st2 : ApiState,
      getCachedAbi env st2 A true =
        (.ok ⟨raw, a⟩, [RemoteCall.getRawAbi A],
          { st2 with cachedAbis := mapSet st2.cachedAbis A ⟨raw, a⟩ })) ∧
    (∀ (st3 : ApiState) (B : String) (rl : Bool) (k : String),
      (st3.cachedAbis.lookup k).isSome →
      (((getCachedAbi env st3 B rl).2.2).cachedAbis.lookup k).isSome) := by
  refine ⟨?_, ?_, fun st2 => ?_, fun st3 B rl k hk => ?_⟩
  · unfold getCachedAbi
    simp [h0, h1, h2]
  · unfold getCachedAbi
    simp [lookup_mapSet]
  · unfold getCachedAbi
    simp [h1, h2]
  · unfold getCachedAbi
    split
    · exact hk
    · split
      · exact hk
      · split
        · exact hk
        · show ((mapSet st3.cachedAbis B _).lookup k).isSome = true
          rw [lookup_mapSet]
          by_cases hkB : k = B
          · rw [if_pos hkB]
            rfl
          · rw [if_neg hkB]
            exact hk

theorem getCachedAbi_cache_claim_witness :
    getCachedAbi envW stEmpty "eosio.token" false =
      (.ok ⟨rawAbiW, abiW⟩, [RemoteCall.getRawAbi "eosio.token"],
        { stEmpty with
            cachedAbis := mapSet stEmpty.cachedAbis "eosio.token" ⟨rawAbiW, abiW⟩ }) :=
  (getCachedAbi_cache_claim envW stEmpty "eosio.token" rawAbiW abiW rfl
    (by decide) (by decide)).1

/-- Claim C6: if the provider fetch or the decode fails inside
`getCachedAbi(A)` (so the fetch path was entered: a reload was
requested or no entry existed), the message of the raised error is the
original message wrapped with the account identifier `A` prepended
(`fetching abi for A: <original>`), and the state — in particular any
pre-existing cache entry for `A` — is returned unchanged: a failed
fetch never stores an entry. -/
theorem getCachedAbi_error_claim (env : Env) (st : ApiState) (A : String)
    (reload : Bool)
    (hmiss : reload = true ∨ st.cachedAbis.lookup A = none) :
    (∀ m, env.getRawAbi A = .error m →
      getCachedAbi env st A reload =
        (.error ("fetching abi for " ++ A ++ ": " ++ m),
          [RemoteCall.getRawAbi A], st)) ∧
    (∀ raw m, env.getRawAbi A = .ok raw → rawAbiToJson raw = .error m →
      getCachedAbi env st A reload =
        (.error ("fetching abi for " ++ A ++ ": " ++ m),
          [RemoteCall.getRawAbi A], st)) := by
  have hnone : (if reload then none else st.cachedAbis.lookup A) = none := by
    cases hmiss with
    | inl h => simp [h]
    | inr h => simp [h]
  refine ⟨fun m hm => ?_, fun raw m hraw hm => ?_⟩
  · unfold getCachedAbi
    rw [hnone]
    simp [hm]
  · unfold getCachedAbi
    rw [hnone]
    simp [hraw, hm]

theorem getCachedAbi_error_claim_witness :
    getCachedAbi envW stEmpty "unknownacct" false =
      (.error "fetching abi for unknownacct: unknown account",
        [RemoteCall.getRawAbi "unknownacct"], stEmpty) :=
  (getCachedAbi_error_claim envW stEmpty "unknownacct" false
    (Or.inr rfl)).1 "unknown account" (by decide)

/-- Claim C7: for every raw ABI byte sequence that decodes (so its
leading version string is supported), re-encoding the structured
document through `jsonToRawAbi` succeeds and yields bytes whose version
string equals that of the original and whose decoded structured content is
the same document; every input whose version is unsupported is rejected
by `rawAbiToJson`, and `jsonToRawAbi` rejects a document that would
encode to an unsupported version. -/
theorem abi_round_trip_claim (raw : List Nat) (a : Abi)
    (h : rawAbiToJson raw = .ok a) :
    (∃ raw2, jsonToRawAbi a = .ok raw2 ∧
      (∃ tl tl2, readStr raw = some (a.version, tl) ∧
        readStr raw2 = some (a.version, tl2)) ∧
      rawAbiToJson raw2 = .ok a) ∧
    (∀ (raw3 : List Nat) (v : String) (tl3 : List Nat),
      readStr raw3 = some (v, tl3) → supportedAbiVersion v = false →
      rawAbiToJson raw3 = .error "Unsupported abi version") ∧
    (∀ a2 : Abi, supportedAbiVersion a2.version = false →
      jsonToRawAbi a2 = .error "Unsupported abi version") := by
  obtain ⟨hdes, hsup, tl, hread⟩ := rawAbiToJson_inv raw a h
  refine ⟨⟨abiDefSerialize a, jsonToRawAbi_supported a hsup,
      ⟨tl, encodePairs a.actions ++ a.rest, hread, readStr_abiDefSerialize a⟩,
      rawAbiToJson_serialize a hsup⟩,
    fun raw3 v tl3 hr hsv => ?_,
    fun a2 h2 => jsonToRawAbi_unsupported a2 h2⟩
  unfold rawAbiToJson
  rw [hr]
  simp [hsv]

theorem abi_round_trip_claim_witness :
    ∃ raw2, jsonToRawAbi abiW = .ok raw2 ∧
      (∃ tl tl2, readStr rawAbiW = some (abiW.version, tl) ∧
        readStr raw2 = some (abiW.version, tl2)) ∧
      rawAbiToJson raw2 = .ok abiW :=
  (abi_round_trip_claim rawAbiW abiW (by decide)).1

/-- Claim C8: `serializeContextFreeData` returns the explicit absent
signal (`none`, the `null` of the source) for a missing argument and for the
empty list — never an empty buffer — and for every non-empty list it
returns the element count as a varuint32 followed by each blob as a
length-prefixed byte array, which is never the empty byte sequence, so
absent data is distinguishable from a zero-length block. -/
theorem serializeContextFreeData_claim :
    serializeContextFreeData none = none ∧
    serializeContextFreeData (some []) = none ∧
    (∀ l : List (List Nat), l ≠ [] →
      serializeContextFreeData (some l) =
        some (pushVaruint32 l.length ++ (l.map pushBytes).flatten)) ∧
    (∀ l : List (List Nat), serializeContextFreeData (some l) ≠ some []) := by
  refine ⟨rfl, rfl, fun l hl => ?_, fun l => ?_⟩
  · show (if l.length = 0 then none
      else some (pushVaruint32 l.length ++ (l.map pushBytes).flatten)) = _
    rw [if_neg (by simpa using hl)]
  · show (if l.length = 0 then none
      else some (pushVaruint32 l.length ++ (l.map pushBytes).flatten)) ≠ some []
    by_cases hl : l.length = 0
    · simp [hl]
    · rw [if_neg hl]
      intro hc
      have h2 := Option.some.inj hc
      have h3 : pushVaruint32 l.length = [] := by
        cases he : pushVaruint32 l.length with
        | nil => rfl
        | cons x xs => rw [he] at h2; exact absurd h2 (by simp)
      exact pushVaruint32_ne_nil l.length h3

theorem serializeContextFreeData_claim_witness :
    serializeContextFreeData (some [[7]]) = some [1, 1, 7] ∧
    serializeContextFreeData (some [[7]]) ≠ some [] :=
  ⟨(serializeContextFreeData_claim.2.2.1 [[7]] (by decide)).trans (by decide),
   serializeContextFreeData_claim.2.2.2 [[7]]⟩

/-- Claim C9: during post-broadcast enrichment, for an action trace
whose account is registered with the WASM-ABI registry, if the decode
hooks for its data and return value throw, the exceptions are
swallowed: the trace is returned completely unchanged (original hex
kept), the rest of the response is intact apart from the per-trace
enrichment map, and on the `transact` level the broadcast call still
returns the (enriched) node response successfully. -/
theorem broadcast_enrichment_claim (W : String → Option WasmAbi)
    (t : ActionTrace) (a : ActData) (abi : WasmAbi)
    (h1 : t.act = some a) (h2 : W a.account = some abi)
    (h3 : ∀ d, a.data = some d →
      ∃ e, decodeTraceField abi.action_args_bin_to_json a.name d = .error e)
    (h4 : ∀ rv, t.return_value = some rv →
      ∃ e, decodeTraceField abi.action_ret_bin_to_json a.name rv = .error e) :
    enrichTrace W t = t ∧
    (∀ (r : NodeResponse) (ts : List ActionTrace),
      r.hasProcessed = true → r.action_traces = some ts →
      enrichResponse (some W) r =
        { r with action_traces := some (ts.map (enrichTrace W)) }) ∧
    (∀ (env : Env) (st : ApiState) (tx : Transaction) (cfg : TransactConfig)
      (cid : String),
      env.wasmAbiProvider = some W → cfg.broadcast = true → cfg.sign = false →
      cfg.blocksBehind = none → cfg.useLastIrreversible = false →
      hasRequiredTaposFields tx = true →
      tx.context_free_actions = [] → tx.actions = [] → st.chainId = some cid →
      transact env st tx cfg =
        (.ok (.response (enrichResponse (some W) (env.sendTransaction
            { signatures := [],
              serializedTransaction := serializeTransaction tx,
              serializedContextFreeData :=
                serializeContextFreeData tx.context_free_data,
              compression := if cfg.compression then some 1 else none }))),
          [RemoteCall.sendTransaction], st)) := by
  have harm1 : enrichTrace W t = t := by
    obtain ⟨tact, trv⟩ := t
    have h1a : tact = some a := h1
    subst h1a
    unfold enrichTrace
    cases hd : a.data with
    | none =>
      cases hrv : trv with
      | none => simp [h2, hd, hrv]
      | some rv =>
        obtain ⟨e, he⟩ := h4 rv hrv
        simp [h2, hd, hrv, he]
    | some d =>
      obtain ⟨e, he⟩ := h3 d hd
      cases hrv : trv with
      | none => simp [h2, hd, hrv, he]
      | some rv =>
        obtain ⟨e2, he2⟩ := h4 rv hrv
        simp [h2, hd, hrv, he, he2]
  refine ⟨harm1, fun r ts hp hts => ?_, ?_⟩
  · unfold enrichResponse
    simp [hp, hts]
  · intro env st tx cfg cid hw hbc hsg hbb huli htp hcfa hacts hcid
    obtain ⟨te, trn, trp, tcfa, tacts, tcfd⟩ := tx
    have hc1 : tcfa = [] := hcfa
    have hc2 : tacts = [] := hacts
    subst hc1
    subst hc2
    unfold transact
    simp [hw, hbc, hsg, hbb, huli, htp, hcid,
      getTransactionAbis, dedupAccounts, dedupGo, getAbisGo, serializeActionsGo]

/-- The two decode hooks of the witness WASM ABI always throw. -/
def wasmAbiThrows : WasmAbi :=
  { action_args_bin_to_json := fun _ _ => .error "decode failed",
    action_ret_bin_to_json := fun _ _ => .error "decode failed" }

/-- A registry owning exactly the account `wasmacct`. -/
def wasmRegW : String → Option WasmAbi :=
  fun a => if a = "wasmacct" then some wasmAbiThrows else none

/-- A response trace for `wasmacct` with hex data and return value. -/
def traceW : ActionTrace :=
  { act := some { account := "wasmacct", name := "doit", data := some (.hexVal "abcd") },
    return_value := some (.hexVal "ff") }

theorem broadcast_enrichment_claim_witness :
    enrichTrace wasmRegW traceW = traceW :=
  (broadcast_enrichment_claim wasmRegW traceW
      { account := "wasmacct", name := "doit", data := some (.hexVal "abcd") }
      wasmAbiThrows rfl rfl
      (fun d hd => by
        injection hd with h
        subst h
        exact ⟨"decode failed", rfl⟩)
      (fun rv hrv => by
        injection hrv with h
        subst h
        exact ⟨"decode failed", rfl⟩)).1

/-- Claim C10: the TAPOS completeness check judges `ref_block_num` and
`ref_block_prefix` by `typeof === "number"` — so `0` passes and a
numeric string fails — while `expiration` is judged by truthiness
alone, so an empty-string expiration counts as missing and makes
`transact` throw the configuration error even though the field is
present. -/
theorem hasRequiredTaposFields_typing_claim :
    (∀ (e : JSVal) (a b : Int), e.truthy = true →
      hasRequiredTaposFields
        { expiration := e, ref_block_num := .num a, ref_block_pfx := .num b } = true) ∧
    (hasRequiredTaposFields
      { expiration := .str "2021-01-01T00:00:00.000", ref_block_num := .num 0,
        ref_block_pfx := .num 0 } = true) ∧
    (∀ (e b : JSVal) (s : String),
      hasRequiredTaposFields
        { expiration := e, ref_block_num := .str s, ref_block_pfx := b } = false) ∧
    (∀ (e a : JSVal) (s : String),
      hasRequiredTaposFields
        { expiration := e, ref_block_num := a, ref_block_pfx := .str s } = false) ∧
    (∀ (a b : JSVal),
      hasRequiredTaposFields
        { expiration := .str "", ref_block_num := a, ref_block_pfx := b } = false) ∧
    (∀ (env : Env) (st : ApiState) (cfg : TransactConfig) (a b : Int) (cid : String),
      cfg.blocksBehind = none → cfg.useLastIrreversible = false →
      st.chainId = some cid →
      transact env st
          { expiration := .str "", ref_block_num := .num a, ref_block_pfx := .num b }
          cfg =
        (.error "Required configuration or TAPOS fields are not present", [], st)) := by
  refine ⟨fun e a b he => ?_, by decide, fun e b s => ?_, fun e a s => ?_,
    fun a b => rfl, fun env st cfg a b cid hbb huli hcid => ?_⟩
  · simp [hasRequiredTaposFields, JSVal.isNumber, he]
  · simp [hasRequiredTaposFields, JSVal.isNumber]
  · simp [hasRequiredTaposFields, JSVal.isNumber]
  · exact (transact_config_error_of_no_knobs env st
      { expiration := .str "", ref_block_num := .num a, ref_block_pfx := .num b }
      cfg hbb huli rfl).1 cid hcid

theorem hasRequiredTaposFields_typing_claim_witness :
    hasRequiredTaposFields
      { expiration := .num 7, ref_block_num := .num 0, ref_block_pfx := .num 0 } = true ∧
    hasRequiredTaposFields
      { expiration := .str "2021-01-01T00:00:00.000", ref_block_num := .str "123",
        ref_block_pfx := .num 0 } = false ∧
    hasRequiredTaposFields
      { expiration := .str "", ref_block_num := .num 5, ref_block_pfx := .num 6 } = false ∧
    transact envW stEmpty
        { expiration := .str "", ref_block_num := .num 5, ref_block_pfx := .num 6 } {} =
      (.error "Required configuration or TAPOS fields are not present", [], stEmpty) :=
  ⟨hasRequiredTaposFields_typing_claim.1 (.num 7) 0 0 (by decide),
   hasRequiredTaposFields_typing_claim.2.2.1 _ _ "123",
   hasRequiredTaposFields_typing_claim.2.2.2.2.1 _ _,
   hasRequiredTaposFields_typing_claim.2.2.2.2.2 envW stEmpty {} 5 6 "cid" rfl rfl rfl⟩

end Eosjs
